import Mathlib

/-!
Verification development for the ReconMC distributed Minecraft-server scanner.

The embedding covers:
* the VarInt wire codec (encode / decode / encodingLength),
* the retry executor (withRetry, calculateRetryDelay),
* the server-mode classifier (isValidUUIDFormatSync, detectServerModeSync),
* the JSON depth guard (getJsonDepth),
* the coordinator's fleet registry (registerAgent, updateHeartbeat,
  listOnlineAgents, removeAgent) over a durable store plus an optional
  TTL-bound cache, including the HTTP route wrappers for heartbeat and delete.

The scanner-side functions (varint, retry, uuid, json depth) are exercised by
the repository's test suite but their implementation files are not part of the
sources available here, so those definitions are modelled from the spec (each
doc comment says so).  The coordinator-side functions are translated directly
from `packages/coordinator/src/services/agentService.ts` and
`packages/coordinator/src/db/redis.ts`.
-/

namespace ReconMC

/-- Modelled from the spec: the scanner's `encode` (packages/scanner
`protocol/varint.ts` is absent from the sources).  A non-negative integer is
encoded 7 bits per byte, least-significant group first, with the continuation
bit (0x80) set on every byte except the last.  The negative / out-of-range
RangeError branch is outside the `Nat` domain. -/
def encode (n : Nat) : List Nat :=
  if n < 128 then [n]
  else (n % 128 + 128) :: encode (n / 128)
termination_by n
decreasing_by
  exact Nat.div_lt_self (by omega) (by omega)

/-- Modelled from the spec: the scanner's `decode`.  Reads 7-bit groups until a
byte without the continuation bit terminates the value; a sequence with no
terminating byte is malformed and yields `none`. -/
def decode : List Nat → Option Nat
  | [] => none
  | b :: rest =>
    if b < 128 then some b
    else (decode rest).map (fun v => b % 128 + 128 * v)

/-- Modelled from the spec: the scanner's `encodingLength`, a pure function of
the magnitude counting 7-bit groups. -/
def encodingLength (n : Nat) : Nat :=
  if n < 128 then 1
  else 1 + encodingLength (n / 128)
termination_by n
decreasing_by
  exact Nat.div_lt_self (by omega) (by omega)

/-- Modelled from the spec: the scanner's `calculateRetryDelay`.  Exponential
mode doubles the base delay per attempt index with a hard 30000 ms ceiling;
flat mode always returns the base delay. -/
def calculateRetryDelay (attemptIndex baseDelay : Nat) (exponential : Bool) : Nat :=
  if exponential then min (baseDelay * 2 ^ attemptIndex) 30000
  else baseDelay

/-- Modelled from the spec: the scanner's `withRetry` (its `retry.ts` is
absent from the sources).  The asynchronous operation is modelled as a function
from the 1-based attempt number to an `Except` result; `withRetryGo op attempt
fuel` performs the attempt numbered `attempt` and, on failure, retries with
`fuel` remaining retries.  The backoff sleep between attempts has no effect on
the returned value and is not modelled. -/
def withRetryGo {E A : Type} (op : Nat → Except E A) : Nat → Nat → Except E (A × Nat)
  | attempt, 0 => (op attempt).map (fun a => (a, attempt))
  | attempt, fuel + 1 =>
    match op attempt with
    | Except.ok a => Except.ok (a, attempt)
    | Except.error _ => withRetryGo op (attempt + 1) fuel

/-- Modelled from the spec: `withRetry(operation, { retries, retryDelay })`
invokes the operation up to `retries + 1` times, returning the success value
paired with the 1-based attempt count, or the last failure unchanged. -/
def withRetry {E A : Type} (op : Nat → Except E A) (retries : Nat) : Except E (A × Nat) :=
  withRetryGo op 1 retries

/-- Operation that fails on attempts 1 and 2 and succeeds on attempt 3,
mirroring the repository's retry test. -/
def opFlaky (i : Nat) : Except String String :=
  if i < 3 then Except.error "fail" else Except.ok "ok"

/-- Operation that fails on every attempt, mirroring the exhaustion test. -/
def opAlwaysFails (_ : Nat) : Except String String :=
  Except.error "always fails"

/-- Modelled from the spec: the hexadecimal-digit check used by the dashed
identifier pattern; case-insensitive. -/
def isHexDigit (c : Char) : Bool :=
  c.isDigit || ('a' ≤ c && c ≤ 'f') || ('A' ≤ c && c ≤ 'F')

/-- Splits a character list on dash characters; the groups between dashes are
checked against the 8-4-4-4-12 pattern. -/
def splitDash : List Char → List (List Char)
  | [] => [[]]
  | c :: rest =>
    if c = '-' then [] :: splitDash rest
    else
      match splitDash rest with
      | [] => [[c]]
      | g :: gs => (c :: g) :: gs

/-- Modelled from the spec: the scanner's `isValidUUIDFormatSync` (its
`uuid.ts` is absent from the sources).  True only for the canonical dashed
hexadecimal identifier form: five dash-separated groups of 8, 4, 4, 4 and 12
hex digits; empty or malformed strings are false. -/
def isValidUUIDFormatSync (s : String) : Bool :=
  (splitDash s.data).map List.length == [8, 4, 4, 4, 12] &&
  (splitDash s.data).all (fun g => g.all isHexDigit)

/-- A sampled player entry from a status probe response. -/
structure Player where
  id : String
  name : String
deriving DecidableEq

/-- The classifier's verdict about a probed server's authentication mode. -/
inductive ServerMode where
  | online
  | offline
  | unknown
deriving DecidableEq

/-- Modelled from the spec: the scanner's `detectServerModeSync`.  Empty
sample: unknown; every id validly formatted: online; any malformed id:
unknown. -/
def detectServerModeSync (players : List Player) : ServerMode :=
  if players.isEmpty then ServerMode.unknown
  else if players.all (fun p => isValidUUIDFormatSync p.id) then ServerMode.online
  else ServerMode.unknown

/-- The configured maximum nesting depth of the scanner's JSON depth guard. -/
def MAX_JSON_DEPTH : Nat := 32

/-- JSON values as seen by the depth guard: scalars (numbers, strings,
booleans, null, undefined) and containers.  An object contributes its field
values as children; keys are irrelevant to depth. -/
inductive JsonValue where
  | scalar : JsonValue
  | arr : List JsonValue → JsonValue
  | obj : List JsonValue → JsonValue

/-- Maximum of a list of naturals, 0 for the empty list. -/
def listMax (xs : List Nat) : Nat := xs.foldr max 0

/-- Modelled from the spec: the recursion core of the scanner's
`getJsonDepth` (its `scanner.ts` is absent from the sources).  Scalars measure
0; a container measures 1 plus the maximum of its children, and once the
remaining fuel (initially `MAX_JSON_DEPTH`) is exhausted a container measures
1 without recursing into its children. -/
def getJsonDepthAux : Nat → JsonValue → Nat
  | _, JsonValue.scalar => 0
  | 0, JsonValue.arr _ => 1
  | 0, JsonValue.obj _ => 1
  | fuel + 1, JsonValue.arr xs => 1 + listMax (xs.map (fun v => getJsonDepthAux fuel v))
  | fuel + 1, JsonValue.obj xs => 1 + listMax (xs.map (fun v => getJsonDepthAux fuel v))

/-- Modelled from the spec: `getJsonDepth(value)` measures nesting depth with
recursion capped at `MAX_JSON_DEPTH`. -/
def getJsonDepth (v : JsonValue) : Nat := getJsonDepthAux MAX_JSON_DEPTH v

/-- An object nested `n` levels deep, as built by the depth-cap test. -/
def nestObj : Nat → JsonValue
  | 0 => JsonValue.scalar
  | n + 1 => JsonValue.obj [nestObj n]

/-- Heartbeat timeout, agentService.ts line 12. -/
def HEARTBEAT_TIMEOUT_MS : Nat := 60000

/-- Cache TTL seconds, agentService.ts line 13.  TTL expiry is an external
event and is not modelled; the claims under verification do not observe it. -/
def AGENT_TTL_SECONDS : Nat := 70

/-- A character allowed by the id regex in agentService.ts `isValidAgentId`:
one of a-z, A-Z, 0-9, underscore, dash. -/
def isValidAgentChar (c : Char) : Bool :=
  c.isAlpha || c.isDigit || c == '_' || c == '-'

/-- From agentService.ts `isValidAgentId`: the whole string matches
[a-zA-Z0-9_-]+ and its length is between 1 and 100. -/
def isValidAgentId (agentId : String) : Bool :=
  (!agentId.data.isEmpty && agentId.data.all isValidAgentChar) &&
  decide (1 ≤ agentId.data.length) && decide (agentId.data.length ≤ 100)

/-- JavaScript ToInt32 (the `hash & hash` step of the id hash). -/
def toInt32 (n : Int) : Int := (n + 2 ^ 31) % 2 ^ 32 - 2 ^ 31

/-- One step of the id hash in agentService.ts `getAgentNumberFromId`:
`hash = ((hash << 5) - hash) + charCode` followed by ToInt32.  Folding the
intermediate `<<` coercion into one final ToInt32 is exact because ToInt32
depends only on the value modulo 2^32. -/
def hashStep (hash : Int) (c : Char) : Int := toInt32 (hash * 32 - hash + c.toNat)

/-- Decimal value of a digit string (the `parseInt(match[1], 10)` branch). -/
def digitsToNat (cs : List Char) : Nat :=
  cs.foldl (fun acc c => acc * 10 + (c.toNat - 48)) 0

/-- From agentService.ts `getAgentNumberFromId`: ids of the shape
"agent-<digits>" parse the digits; any other id hashes to a number in
1..1000. -/
def getAgentNumberFromId (agentId : String) : Nat :=
  if agentId.data.take 6 = "agent-".data ∧ agentId.data.drop 6 ≠ [] ∧
      (agentId.data.drop 6).all Char.isDigit then
    digitsToNat (agentId.data.drop 6)
  else
    (agentId.data.foldl hashStep 0).natAbs % 1000 + 1

/-- A row of the durable store's `agents` relation (timestamps in ms). -/
structure DbAgentRow where
  id : String
  name : String
  status : String
  lastHeartbeat : Nat
  registeredAt : Nat
  currentQueueId : Option String
deriving DecidableEq

/-- The per-agent data hash the registry keeps in the cache (the Redis
AGENT_DATA key); `registeredAt` is written there too but never read back by
the functions under verification, so it is not tracked. -/
structure CacheAgentData where
  id : String
  name : String
  status : String
deriving DecidableEq

/-- The fast-path cache state: the AGENTS_ONLINE set (as an insertion-ordered
list), the per-agent data hashes and the per-agent heartbeat keys, both as
association lists.  A missing association models a missing or expired key
(`hgetall` of such a key yields the empty hash, which `listOnlineAgents`
filters out). -/
structure RedisState where
  agentsOnline : List String
  agentData : List (String × CacheAgentData)
  agentHeartbeat : List (String × Nat)
deriving DecidableEq

/-- Association-list update: overwrite in place, or append when absent. -/
def setAssoc {α : Type} (m : List (String × α)) (id : String) (v : α) :
    List (String × α) :=
  if m.any (fun kv => kv.1 == id) then
    m.map (fun kv => if kv.1 == id then (id, v) else kv)
  else m ++ [(id, v)]

/-- Association-list deletion. -/
def delAssoc {α : Type} (m : List (String × α)) (id : String) :
    List (String × α) :=
  m.filter (fun kv => kv.1 != id)

/-- The data hash stored for `id`, none when the key is missing or empty. -/
def lookupData (st : RedisState) (id : String) : Option CacheAgentData :=
  (st.agentData.find? (fun kv => kv.1 == id)).map (fun kv => kv.2)

/-- What GET /agents returns per agent: the durable columns plus the derived
offline flag (the `secret` column of the real schema is never read by the
functions under verification and is not tracked). -/
structure ListedAgent where
  id : String
  name : String
  status : String
  lastHeartbeat : Nat
  registeredAt : Nat
  currentQueueId : Option String
  offline : Bool
deriving DecidableEq

/-- From agentService.ts `removeOfflineAgents`: skipped entirely when the
cache is available (TTL handles cleanup there); otherwise deletes durable
rows whose lastHeartbeat is before `now - HEARTBEAT_TIMEOUT_MS`. -/
def removeOfflineAgents (db : List DbAgentRow) (redisAvailable : Bool)
    (now : Nat) : List DbAgentRow :=
  if redisAvailable then db
  else db.filter (fun a => !decide (a.lastHeartbeat < now - HEARTBEAT_TIMEOUT_MS))

/-- The PostgreSQL fallback branch of `listOnlineAgents`: sweep offline rows
(a no-op when the cache is available), then return every remaining row with
the derived offline flag.  Returns the listing and the durable store after
the sweep. -/
def listOnlineFallback (redisAvailable : Bool) (db : List DbAgentRow)
    (now : Nat) : List ListedAgent × List DbAgentRow :=
  let db2 := removeOfflineAgents db redisAvailable now
  (db2.map (fun a =>
    { id := a.id, name := a.name, status := a.status,
      lastHeartbeat := a.lastHeartbeat, registeredAt := a.registeredAt,
      currentQueueId := a.currentQueueId,
      offline := decide (now - a.lastHeartbeat > HEARTBEAT_TIMEOUT_MS) }), db2)

/-- From agentService.ts `listOnlineAgents`.  The cache is `none` when
unavailable (every `safeRedisCommand` then returns its null fallback, as in
redis.ts).  When the online set is non-empty, the data hashes of its members
are fetched and the non-empty ones returned as online agents, with
lastHeartbeat and registeredAt stamped with the current time and no queue
assignment; when the set or the fetched data is empty the durable fallback
runs.  Returns the listing and the durable store afterwards. -/
def listOnlineAgents (redis : Option RedisState) (db : List DbAgentRow)
    (now : Nat) : List ListedAgent × List DbAgentRow :=
  match redis with
  | none => listOnlineFallback false db now
  | some st =>
    if st.agentsOnline.isEmpty then listOnlineFallback true db now
    else
      let agentsData := st.agentsOnline.filterMap (fun id => lookupData st id)
      if agentsData.isEmpty then listOnlineFallback true db now
      else
        (agentsData.map (fun d =>
          { id := d.id, name := d.name, status := d.status,
            lastHeartbeat := now, registeredAt := now,
            currentQueueId := none, offline := false }), db)

/-- The result body of a successful registration (its constant `ok: true`
member is omitted). -/
structure RegisterResult where
  agentId : String
  agentName : String
deriving DecidableEq

/-- The drizzle upsert in `registerAgent`: insert a fresh row on a new id
(the schema defaults stamp lastHeartbeat and registeredAt with now), on
conflict update name, reset status to idle, stamp lastHeartbeat and clear
currentQueueId. -/
def upsertAgent (db : List DbAgentRow) (agentId agentName : String)
    (now : Nat) : List DbAgentRow :=
  if db.any (fun a => a.id == agentId) then
    db.map (fun a =>
      if a.id == agentId then
        { a with name := agentName, status := "idle",
                 lastHeartbeat := now, currentQueueId := none }
      else a)
  else
    db ++ [{ id := agentId, name := agentName, status := "idle",
             lastHeartbeat := now, registeredAt := now, currentQueueId := none }]

/-- The cache refresh `registerAgent` performs through `safeRedisCommand`:
sadd to the online set, setex the heartbeat key, hset the data hash.  When
the cache is unavailable `safeRedisCommand` returns its null fallback and the
state is untouched; it never raises (redis.ts `safeRedisCommand`). -/
def registerCacheRefresh (redis : Option RedisState)
    (agentId agentName : String) (now : Nat) : Option RedisState :=
  match redis with
  | none => none
  | some st => some
    { agentsOnline :=
        if st.agentsOnline.contains agentId then st.agentsOnline
        else st.agentsOnline ++ [agentId],
      agentData := setAssoc st.agentData agentId ⟨agentId, agentName, "idle"⟩,
      agentHeartbeat := setAssoc st.agentHeartbeat agentId now }

/-- The display-name resolution in `registerAgent`: a supplied non-empty name
wins; an absent or empty supplied name (dropped by JS `||` truthiness) falls
back to the numeric default. -/
def regName (agentId : String) (name : Option String) : String :=
  match name with
  | some n =>
    if n.isEmpty then "Agent " ++ toString (getAgentNumberFromId agentId)
    else n
  | none => "Agent " ++ toString (getAgentNumberFromId agentId)

/-- From agentService.ts `registerAgent`: reject malformed ids, resolve the
display name, upsert the durable row, then refresh the cache best-effort. -/
def registerAgent (redis : Option RedisState) (db : List DbAgentRow)
    (agentId : String) (name : Option String) (now : Nat) :
    Except String (RegisterResult × List DbAgentRow × Option RedisState) :=
  if !isValidAgentId agentId then Except.error "Invalid agentId format"
  else
    Except.ok (⟨agentId, regName agentId name⟩,
      upsertAgent db agentId (regName agentId name) now,
      registerCacheRefresh redis agentId (regName agentId name) now)

/-- The row update applied by `updateHeartbeat`'s drizzle update: always
stamps lastHeartbeat; sets status only when a non-empty status was supplied
(JS truthiness drops the empty string); sets currentQueueId only when one was
supplied. -/
def hbRow (agentId : String) (status currentQueueId : Option String)
    (now : Nat) (a : DbAgentRow) : DbAgentRow :=
  if a.id == agentId then
    { a with
      lastHeartbeat := now,
      status :=
        match status with
        | some s => if s.isEmpty then a.status else s
        | none => a.status,
      currentQueueId :=
        match currentQueueId with
        | some q => some q
        | none => a.currentQueueId }
  else a

/-- The cache refresh `updateHeartbeat` performs through `safeRedisCommand`:
refresh the heartbeat key, update the status field of the data hash when a
non-empty status was supplied, re-add to the online set.  Untouched when the
cache is unavailable. -/
def heartbeatCacheRefresh (redis : Option RedisState) (agentId : String)
    (status : Option String) (now : Nat) : Option RedisState :=
  match redis with
  | none => none
  | some st => some
    { agentsOnline :=
        if st.agentsOnline.contains agentId then st.agentsOnline
        else st.agentsOnline ++ [agentId],
      agentData :=
        match status with
        | some s =>
          if s.isEmpty then st.agentData
          else st.agentData.map (fun kv =>
            if kv.1 == agentId then (kv.1, { kv.2 with status := s }) else kv)
        | none => st.agentData,
      agentHeartbeat := setAssoc st.agentHeartbeat agentId now }

/-- From agentService.ts `updateHeartbeat`: reject malformed ids, fail when
no durable row exists, otherwise update the durable row and refresh the cache
best-effort. -/
def updateHeartbeat (redis : Option RedisState) (db : List DbAgentRow)
    (agentId : String) (status currentQueueId : Option String) (now : Nat) :
    Except String (List DbAgentRow × Option RedisState) :=
  if !isValidAgentId agentId then Except.error "Invalid agentId format"
  else if !db.any (fun a => a.id == agentId) then Except.error "Agent not registered"
  else
    Except.ok (db.map (hbRow agentId status currentQueueId now),
      heartbeatCacheRefresh redis agentId status now)

/-- From agentService.ts `removeAgent`: false on a malformed id; otherwise
drop the agent from the cache's online set, heartbeat and data keys
(best-effort) while the durable row is kept for history. -/
def removeAgent (redis : Option RedisState) (db : List DbAgentRow)
    (agentId : String) : Bool × List DbAgentRow × Option RedisState :=
  if !isValidAgentId agentId then (false, db, redis)
  else
    (true, db,
      match redis with
      | none => none
      | some st => some
        { agentsOnline := st.agentsOnline.filter (fun id => id != agentId),
          agentData := delAssoc st.agentData agentId,
          agentHeartbeat := delAssoc st.agentHeartbeat agentId })

/-- An HTTP reply from the agent routes: status code, and whether the body
was the ok body. -/
structure RouteReply where
  status : Nat
  okBody : Bool
deriving DecidableEq

/-- Whether `pat` is an initial run of `cs`. -/
def startRun : List Char → List Char → Bool
  | [], _ => true
  | _ :: _, [] => false
  | p :: ps, c :: cs => p == c && startRun ps cs

/-- Whether `pat` occurs as a contiguous run anywhere in the list. -/
def hasRun (pat : List Char) : List Char → Bool
  | [] => startRun pat []
  | c :: rest => startRun pat (c :: rest) || hasRun pat rest

/-- JavaScript `String.prototype.includes`, used by the route handlers to
classify service errors by message. -/
def msgIncludes (msg pat : String) : Bool := hasRun pat.data msg.data

/-- The POST /agents/heartbeat handler from the agent routes: 400 when the
body carries no agent id, 400 / 404 on the two service errors (matched by
message inclusion, as the source does), 200 with the ok body on success. -/
def heartbeatRoute (redis : Option RedisState) (db : List DbAgentRow)
    (agentId : String) (status currentQueueId : Option String) (now : Nat) :
    RouteReply × List DbAgentRow × Option RedisState :=
  if agentId.isEmpty then (⟨400, false⟩, db, redis)
  else
    match updateHeartbeat redis db agentId status currentQueueId now with
    | Except.ok (db2, redis2) => (⟨200, true⟩, db2, redis2)
    | Except.error msg =>
      if msgIncludes msg "Invalid agentId" then (⟨400, false⟩, db, redis)
      else if msgIncludes msg "not registered" then (⟨404, false⟩, db, redis)
      else (⟨500, false⟩, db, redis)

/-- The DELETE /agents/:id handler from the agent routes: 404 when
`removeAgent` reports failure, 200 with the ok body otherwise. -/
def deleteAgentRoute (redis : Option RedisState) (db : List DbAgentRow)
    (agentId : String) : RouteReply × List DbAgentRow × Option RedisState :=
  match removeAgent redis db agentId with
  | (false, db2, redis2) => (⟨404, false⟩, db2, redis2)
  | (true, db2, redis2) => (⟨200, true⟩, db2, redis2)

/-- The cache state of the C2 counterexample: the online set names agent "a"
but the data hash of "a" is missing (expired), so `hgetall` yields the empty
hash. -/
def c2CacheState : RedisState :=
  { agentsOnline := ["a"], agentData := [], agentHeartbeat := [] }

/-- The durable store of the C2 counterexample: one recently-seen agent "b". -/
def c2Db : List DbAgentRow :=
  [{ id := "b", name := "Agent B", status := "idle",
     lastHeartbeat := 100000, registeredAt := 0, currentQueueId := none }]

/-- A cache state with one online agent whose data hash is present, used to
exercise the cache-hit path of list() at a concrete input. -/
def c2WitnessState : RedisState :=
  { agentsOnline := ["a"],
    agentData := [("a", { id := "a", name := "Agent A", status := "idle" })],
    agentHeartbeat := [] }

theorem decode_encode (n : Nat) : decode (encode n) = some n := by
  induction n using Nat.strong_induction_on with
  | _ n ih =>
    by_cases h : n < 128
    · rw [encode]
      simp [h, decode]
    · rw [encode, if_neg h]
      have hb : ¬ (n % 128 + 128 < 128) := by omega
      rw [decode, if_neg hb]
      rw [ih (n / 128) (Nat.div_lt_self (by omega) (by omega))]
      simp only [Option.map_some']
      congr 1
      omega

theorem length_encode (n : Nat) : (encode n).length = encodingLength n := by
  induction n using Nat.strong_induction_on with
  | _ n ih =>
    by_cases h : n < 128
    · rw [encode, encodingLength]
      simp [h]
    · rw [encode, if_neg h, encodingLength, if_neg h]
      simp only [List.length_cons]
      rw [ih (n / 128) (Nat.div_lt_self (by omega) (by omega))]
      omega

/-- C1: for every n representable in the VarInt format (0 to 2^31-1),
`decode (encode n) = n`, `encodingLength n` equals the number of bytes
`encode n` produces, and `encode 128` is exactly the two bytes 0x80, 0x01. -/
theorem c1_varint_roundtrip (n : Nat) (h : n ≤ 2 ^ 31 - 1) :
    decode (encode n) = some n ∧
    (encode n).length = encodingLength n ∧
    encode 128 = [0x80, 0x01] :=
  ⟨decode_encode n, length_encode n, by rw [encode]; norm_num; rw [encode]; norm_num⟩

/-- Witness for C1 at n = 128. -/
theorem c1_varint_roundtrip_witness :
    128 ≤ 2 ^ 31 - 1 ∧
    (decode (encode 128) = some 128 ∧
      (encode 128).length = encodingLength 128 ∧
      encode 128 = [0x80, 0x01]) :=
  ⟨by norm_num, c1_varint_roundtrip 128 (by norm_num)⟩

/-- C4: exponential mode equals `min (baseDelay * 2 ^ attemptIndex) 30000`
(hence never exceeds 30000); flat mode always equals the base delay. -/
theorem c4_calculateRetryDelay_spec (i b : Nat) :
    calculateRetryDelay i b true = min (b * 2 ^ i) 30000 ∧
    calculateRetryDelay i b true ≤ 30000 ∧
    calculateRetryDelay i b false = b :=
  ⟨rfl, min_le_right _ _, rfl⟩

theorem withRetryGo_all_fail {E A : Type} (op : Nat → Except E A) (f : Nat → E)
    (hf : ∀ i, op i = Except.error (f i)) (fuel : Nat) :
    ∀ attempt, withRetryGo op attempt fuel = Except.error (f (attempt + fuel)) := by
  induction fuel with
  | zero =>
    intro attempt
    simp [withRetryGo, hf attempt, Except.map]
  | succ fuel ih =>
    intro attempt
    rw [withRetryGo, hf attempt]
    rw [ih (attempt + 1), show attempt + 1 + fuel = attempt + (fuel + 1) by omega]

theorem withRetryGo_ok {E A : Type} (op : Nat → Except E A) (fuel : Nat) :
    ∀ attempt a k, withRetryGo op attempt fuel = Except.ok (a, k) →
      attempt ≤ k ∧ k ≤ attempt + fuel ∧ op k = Except.ok a ∧
      ∀ i, attempt ≤ i → i < k → ∃ e, op i = Except.error e := by
  induction fuel with
  | zero =>
    intro attempt a k h
    rw [withRetryGo] at h
    cases hop : op attempt with
    | ok a' =>
      rw [hop] at h
      simp [Except.map] at h
      obtain ⟨rfl, rfl⟩ := h
      exact ⟨le_refl _, by omega, hop, fun i h1 h2 => absurd h1 (by omega)⟩
    | error e =>
      rw [hop] at h
      simp [Except.map] at h
  | succ fuel ih =>
    intro attempt a k h
    rw [withRetryGo] at h
    cases hop : op attempt with
    | ok a' =>
      rw [hop] at h
      simp at h
      obtain ⟨rfl, rfl⟩ := h
      exact ⟨le_refl _, by omega, hop, fun i h1 h2 => absurd h1 (by omega)⟩
    | error e =>
      rw [hop] at h
      simp at h
      obtain ⟨h1, h2, h3, h4⟩ := ih (attempt + 1) a k h
      refine ⟨by omega, by omega, h3, fun i hi1 hi2 => ?_⟩
      by_cases hc : i = attempt
      · exact ⟨e, hc ▸ hop⟩
      · exact h4 i (by omega) hi2

theorem withRetryGo_succeeds {E A : Type} (op : Nat → Except E A) (a : A) (fuel : Nat) :
    ∀ attempt s, (∀ i, attempt ≤ i → i < s → ∃ e, op i = Except.error e) →
      op s = Except.ok a → attempt ≤ s → s ≤ attempt + fuel →
      withRetryGo op attempt fuel = Except.ok (a, s) := by
  induction fuel with
  | zero =>
    intro attempt s hfail hs h1 h2
    have : s = attempt := by omega
    subst this
    rw [withRetryGo, hs]
    rfl
  | succ fuel ih =>
    intro attempt s hfail hs h1 h2
    by_cases hc : s = attempt
    · subst hc
      rw [withRetryGo, hs]
    · obtain ⟨e, he⟩ := hfail attempt (le_refl _) (by omega)
      rw [withRetryGo, he]
      exact ih (attempt + 1) s (fun i hi1 hi2 => hfail i (by omega) hi2) hs (by omega) (by omega)

/-- C3: `withRetry` invokes the operation at most `retries + 1` times; when
every invocation fails it propagates the last failure's error unchanged; when
invocation number `s` (1-based) is the first to succeed it returns the value
with `attempts = s`; any successful return carries a 1-based attempt count of
at most `retries + 1`, that attempt succeeded, and all earlier ones failed. -/
theorem c3_withRetry_spec {E A : Type} (op : Nat → Except E A) (f : Nat → E)
    (a : A) (s retries : Nat) :
    ((∀ i, op i = Except.error (f i)) →
      withRetry op retries = Except.error (f (retries + 1))) ∧
    ((∀ i, 1 ≤ i → i < s → ∃ e, op i = Except.error e) →
      op s = Except.ok a → 1 ≤ s → s ≤ retries + 1 →
      withRetry op retries = Except.ok (a, s)) ∧
    (∀ a' k, withRetry op retries = Except.ok (a', k) →
      1 ≤ k ∧ k ≤ retries + 1 ∧ op k = Except.ok a' ∧
      ∀ i, 1 ≤ i → i < k → ∃ e, op i = Except.error e) := by
  refine ⟨fun hf => ?_, fun hfail hs h1 h2 => ?_, fun a' k h => ?_⟩
  · rw [withRetry, withRetryGo_all_fail op f hf retries 1, Nat.add_comm 1 retries]
  · exact withRetryGo_succeeds op a retries 1 s hfail hs h1 (by omega)
  · obtain ⟨h1, h2, h3, h4⟩ := withRetryGo_ok op retries 1 a' k h
    exact ⟨h1, by omega, h3, h4⟩

/-- Witness for C3: the flaky operation (fails twice, then succeeds) returns
attempts = 3, and the always-failing operation with retries = 2 surfaces the
original message unchanged. -/
theorem c3_withRetry_spec_witness :
    withRetry opFlaky 5 = Except.ok ("ok", 3) ∧
    withRetry opAlwaysFails 2 = Except.error "always fails" := by
  constructor
  · refine (c3_withRetry_spec opFlaky (fun _ => "fail") "ok" 3 5).2.1
      (fun i h1 h2 => ⟨"fail", ?_⟩) ?_ (by norm_num) (by norm_num)
    · simp [opFlaky, h2]
    · simp [opFlaky]
  · exact (c3_withRetry_spec opAlwaysFails (fun _ => "always fails") "x" 1 2).1
      (fun i => rfl)

/-- C8: the classifier returns unknown on an empty sample, online when every
id is validly formatted, unknown when any id fails the format check, and never
returns offline. -/
theorem c8_detectServerMode_spec :
    detectServerModeSync [] = ServerMode.unknown ∧
    (∀ ps : List Player, ps ≠ [] →
      (∀ p ∈ ps, isValidUUIDFormatSync p.id = true) →
      detectServerModeSync ps = ServerMode.online) ∧
    (∀ ps : List Player, (∃ p ∈ ps, isValidUUIDFormatSync p.id = false) →
      detectServerModeSync ps = ServerMode.unknown) ∧
    (∀ ps : List Player, detectServerModeSync ps ≠ ServerMode.offline) := by
  refine ⟨rfl, fun ps hne hall => ?_, fun ps hbad => ?_, fun ps => ?_⟩
  · have h1 : ps.isEmpty = false := by
      cases ps with
      | nil => exact absurd rfl hne
      | cons p ps => rfl
    have h2 : ps.all (fun p => isValidUUIDFormatSync p.id) = true :=
      List.all_eq_true.mpr hall
    simp [detectServerModeSync, h1, h2]
  · obtain ⟨p, hp, hbadp⟩ := hbad
    have h2 : ps.all (fun p => isValidUUIDFormatSync p.id) = false := by
      rcases hall : ps.all (fun p => isValidUUIDFormatSync p.id) with _ | _
      · rfl
      · exact absurd (List.all_eq_true.mp hall p hp) (by simp [hbadp])
    rcases h1 : ps.isEmpty with _ | _
    · simp [detectServerModeSync, h1, h2]
    · simp [detectServerModeSync, h1]
  · rcases h1 : ps.isEmpty with _ | _
    · rcases h2 : ps.all (fun p => isValidUUIDFormatSync p.id) with _ | _
      · simp [detectServerModeSync, h1, h2]
      · simp [detectServerModeSync, h1, h2]
    · simp [detectServerModeSync, h1]

/-- Witness for C8: one well-formed entry classifies as online, and a mix of
one well-formed and one malformed entry classifies as unknown. -/
theorem c8_detectServerMode_spec_witness :
    detectServerModeSync [⟨"069a79f4-44e9-4726-a5be-fca90e38aaf5", "Notch"⟩] =
      ServerMode.online ∧
    detectServerModeSync
      [⟨"069a79f4-44e9-4726-a5be-fca90e38aaf5", "Notch"⟩, ⟨"badid", "Fake"⟩] =
      ServerMode.unknown := by
  constructor
  · refine c8_detectServerMode_spec.2.1 _ (by simp) ?_
    intro p hp
    simp only [List.mem_singleton] at hp
    subst hp
    decide
  · exact c8_detectServerMode_spec.2.2.1 _
      ⟨⟨"badid", "Fake"⟩, by simp, by decide⟩

theorem le_listMax {a : Nat} {xs : List Nat} (h : a ∈ xs) : a ≤ listMax xs := by
  induction xs with
  | nil => cases h
  | cons x xs ih =>
    rcases List.mem_cons.mp h with rfl | h'
    · exact le_max_left _ _
    · exact le_trans (ih h') (le_max_right _ _)

theorem listMax_le {B : Nat} {xs : List Nat} (h : ∀ a ∈ xs, a ≤ B) :
    listMax xs ≤ B := by
  induction xs with
  | nil => exact Nat.zero_le _
  | cons x xs ih =>
    exact max_le (h x (List.mem_cons_self _ _)) (ih fun a ha => h a (List.mem_cons_of_mem _ ha))

theorem getJsonDepthAux_le (fuel : Nat) : ∀ v, getJsonDepthAux fuel v ≤ fuel + 1 := by
  induction fuel with
  | zero => intro v; cases v <;> simp [getJsonDepthAux]
  | succ fuel ih =>
    intro v
    cases v with
    | scalar => simp [getJsonDepthAux]
    | arr xs =>
      simp only [getJsonDepthAux]
      have hm : listMax (xs.map (fun v => getJsonDepthAux fuel v)) ≤ fuel + 1 := by
        refine listMax_le fun a ha => ?_
        obtain ⟨x, _, rfl⟩ := List.mem_map.mp ha
        exact ih x
      omega
    | obj xs =>
      simp only [getJsonDepthAux]
      have hm : listMax (xs.map (fun v => getJsonDepthAux fuel v)) ≤ fuel + 1 := by
        refine listMax_le fun a ha => ?_
        obtain ⟨x, _, rfl⟩ := List.mem_map.mp ha
        exact ih x
      omega

theorem getJsonDepthAux_stable (fuel : Nat) :
    ∀ v, getJsonDepthAux (fuel + 1) v ≤ fuel →
      getJsonDepthAux fuel v = getJsonDepthAux (fuel + 1) v := by
  induction fuel with
  | zero =>
    intro v hv
    cases v with
    | scalar => rfl
    | arr xs => simp [getJsonDepthAux] at hv
    | obj xs => simp [getJsonDepthAux] at hv
  | succ fuel ih =>
    intro v hv
    cases v with
    | scalar => rfl
    | arr xs =>
      simp only [getJsonDepthAux] at hv ⊢
      congr 2
      refine List.map_congr_left fun x hx => ih x ?_
      have : getJsonDepthAux (fuel + 1) x ≤
          listMax (xs.map (fun v => getJsonDepthAux (fuel + 1) v)) :=
        le_listMax (List.mem_map.mpr ⟨x, hx, rfl⟩)
      omega
    | obj xs =>
      simp only [getJsonDepthAux] at hv ⊢
      congr 2
      refine List.map_congr_left fun x hx => ih x ?_
      have : getJsonDepthAux (fuel + 1) x ≤
          listMax (xs.map (fun v => getJsonDepthAux (fuel + 1) v)) :=
        le_listMax (List.mem_map.mpr ⟨x, hx, rfl⟩)
      omega

/-- C9: the depth guard measures 0 on scalars and 1 on empty containers; a
container whose children measure strictly below the cap measures 1 plus the
maximum child depth; and the measurement never exceeds the cap plus one, so a
50-level-deep structure measures at most 33. -/
theorem c9_getJsonDepth_spec :
    getJsonDepth JsonValue.scalar = 0 ∧
    getJsonDepth (JsonValue.arr []) = 1 ∧
    getJsonDepth (JsonValue.obj []) = 1 ∧
    (∀ xs : List JsonValue, listMax (xs.map getJsonDepth) < MAX_JSON_DEPTH →
      getJsonDepth (JsonValue.arr xs) = 1 + listMax (xs.map getJsonDepth)) ∧
    (∀ xs : List JsonValue, listMax (xs.map getJsonDepth) < MAX_JSON_DEPTH →
      getJsonDepth (JsonValue.obj xs) = 1 + listMax (xs.map getJsonDepth)) ∧
    (∀ v, getJsonDepth v ≤ MAX_JSON_DEPTH + 1) ∧
    getJsonDepth (nestObj 50) ≤ 33 := by
  have hcontainer : ∀ xs : List JsonValue,
      listMax (xs.map getJsonDepth) < MAX_JSON_DEPTH →
      (xs.map (fun v => getJsonDepthAux 31 v)) = xs.map getJsonDepth := by
    intro xs hxs
    refine List.map_congr_left fun x hx => ?_
    have hle : getJsonDepth x ≤ 31 := by
      have hmem : getJsonDepth x ≤ listMax (xs.map getJsonDepth) :=
        le_listMax (List.mem_map.mpr ⟨x, hx, rfl⟩)
      have hM : MAX_JSON_DEPTH = 32 := rfl
      omega
    exact getJsonDepthAux_stable 31 x hle
  refine ⟨rfl, rfl, rfl, fun xs hxs => ?_, fun xs hxs => ?_,
    fun v => getJsonDepthAux_le MAX_JSON_DEPTH v, getJsonDepthAux_le MAX_JSON_DEPTH _⟩
  · show 1 + listMax (xs.map (fun v => getJsonDepthAux 31 v)) = _
    rw [hcontainer xs hxs]
  · show 1 + listMax (xs.map (fun v => getJsonDepthAux 31 v)) = _
    rw [hcontainer xs hxs]

/-- Witness for C9: singleton containers around a scalar measure depth 2, via
the container rule at a concrete input. -/
theorem c9_getJsonDepth_spec_witness :
    getJsonDepth (JsonValue.arr [JsonValue.scalar]) =
      1 + listMax ([JsonValue.scalar].map getJsonDepth) ∧
    getJsonDepth (JsonValue.obj [JsonValue.scalar]) =
      1 + listMax ([JsonValue.scalar].map getJsonDepth) :=
  ⟨c9_getJsonDepth_spec.2.2.2.1 [JsonValue.scalar] (by decide),
   c9_getJsonDepth_spec.2.2.2.2.1 [JsonValue.scalar] (by decide)⟩

theorem isValidAgentId_iff (s : String) :
    isValidAgentId s = true ↔
      (s.data ≠ [] ∧ s.data.length ≤ 100 ∧
        ∀ c ∈ s.data, (c.isAlpha = true ∨ c.isDigit = true ∨ c = '_' ∨ c = '-')) := by
  simp only [isValidAgentId, isValidAgentChar, Bool.and_eq_true, Bool.not_eq_true',
    List.all_eq_true, decide_eq_true_eq, Bool.or_eq_true, beq_iff_eq]
  constructor
  · rintro ⟨⟨⟨hne, hall⟩, _⟩, h2⟩
    refine ⟨fun hd => by rw [hd] at hne; simp at hne, h2,
      fun c hc => by have := hall c hc; tauto⟩
  · rintro ⟨hne, h2, hall⟩
    have hlen : 1 ≤ s.data.length := by
      cases hd : s.data with
      | nil => exact absurd hd hne
      | cons c cs => simp [hd]
    have hemp : s.data.isEmpty = false := by
      cases hd : s.data with
      | nil => exact absurd hd hne
      | cons c cs => rfl
    exact ⟨⟨⟨hemp, fun c hc => by have := hall c hc; tauto⟩, hlen⟩, h2⟩

theorem isValidAgentId_not_strEmpty {s : String} (h : isValidAgentId s = true) :
    s.isEmpty = false := by
  have hne := ((isValidAgentId_iff s).mp h).1
  rcases he : s.isEmpty with _ | _
  · rfl
  · exact absurd (congrArg String.data ((String.isEmpty_iff s).mp he)) hne

theorem upsertAgent_mem (db : List DbAgentRow) (agentId agentName : String)
    (now : Nat) :
    ∃ row ∈ upsertAgent db agentId agentName now,
      row.id = agentId ∧ row.status = "idle" ∧ row.lastHeartbeat = now ∧
      row.currentQueueId = none := by
  unfold upsertAgent
  by_cases h : db.any (fun a => a.id == agentId) = true
  · rw [if_pos h]
    obtain ⟨a, ha, hid⟩ := List.any_eq_true.mp h
    refine ⟨_, List.mem_map_of_mem _ ha, ?_⟩
    rw [if_pos hid]
    exact ⟨beq_iff_eq.mp hid, rfl, rfl, rfl⟩
  · rw [if_neg h]
    exact ⟨_, List.mem_append_right _ (List.mem_singleton_self _),
      rfl, rfl, rfl, rfl⟩

theorem upsertAgent_frame (db : List DbAgentRow) (agentId agentName : String)
    (now : Nat) :
    ∀ row ∈ db, row.id ≠ agentId → row ∈ upsertAgent db agentId agentName now := by
  intro row hrow hne
  unfold upsertAgent
  by_cases h : db.any (fun a => a.id == agentId) = true
  · rw [if_pos h]
    have hb : ¬ ((row.id == agentId) = true) := by simp [hne]
    refine List.mem_map.mpr ⟨row, hrow, ?_⟩
    simp [hb]
  · rw [if_neg h]
    exact List.mem_append_left _ hrow

/-- C5: registration fails with the invalid-identifier error exactly when the
id is not a 1-100 character string of alphanumerics, dashes and underscores;
on a valid id it succeeds for every cache state, including an unavailable one
(so a cache-refresh failure never fails the call), the upserted durable row
carries status idle, lastHeartbeat now and no assignment, and rows of other
agents are untouched. -/
theorem c5_register_spec (redis : Option RedisState) (db : List DbAgentRow)
    (agentId : String) (name : Option String) (now : Nat) :
    ((∃ r, registerAgent redis db agentId name now = Except.ok r) ↔
      (agentId.data ≠ [] ∧ agentId.data.length ≤ 100 ∧
        ∀ c ∈ agentId.data, (c.isAlpha = true ∨ c.isDigit = true ∨ c = '_' ∨ c = '-'))) ∧
    (isValidAgentId agentId = false →
      registerAgent redis db agentId name now = Except.error "Invalid agentId format") ∧
    (isValidAgentId agentId = true →
      ∃ res db2 redis2,
        registerAgent redis db agentId name now = Except.ok (res, db2, redis2) ∧
        res.agentId = agentId ∧
        (∃ row ∈ db2, row.id = agentId ∧ row.status = "idle" ∧
          row.lastHeartbeat = now ∧ row.currentQueueId = none) ∧
        (∀ row ∈ db, row.id ≠ agentId → row ∈ db2)) := by
  have hok : isValidAgentId agentId = true →
      registerAgent redis db agentId name now =
        Except.ok (⟨agentId, regName agentId name⟩,
          upsertAgent db agentId (regName agentId name) now,
          registerCacheRefresh redis agentId (regName agentId name) now) := by
    intro hv
    rw [registerAgent, if_neg (by simp [hv])]
  refine ⟨⟨?_, ?_⟩, fun hinv => ?_, fun hv => ?_⟩
  · rintro ⟨r, hr⟩
    by_cases hv : isValidAgentId agentId = true
    · exact (isValidAgentId_iff agentId).mp hv
    · rw [registerAgent, if_pos (by simp [Bool.not_eq_true] at hv ⊢; exact hv)] at hr
      cases hr
  · intro hc
    exact ⟨_, hok ((isValidAgentId_iff agentId).mpr hc)⟩
  · rw [registerAgent, if_pos (by simp [hinv])]
  · exact ⟨_, _, _, hok hv, rfl, upsertAgent_mem db agentId _ now,
      upsertAgent_frame db agentId _ now⟩

/-- Witness for C5: "agent-1" registers successfully with an idle row stamped
now, and "bad id!" is rejected with the invalid-identifier error. -/
theorem c5_register_spec_witness :
    (∃ r, registerAgent none [] "agent-1" (some "Scanner") 5000 = Except.ok r) ∧
    registerAgent none [] "bad id!" none 5000 =
      Except.error "Invalid agentId format" := by
  constructor
  · exact (c5_register_spec none [] "agent-1" (some "Scanner") 5000).1.mpr
      (by decide)
  · exact (c5_register_spec none [] "bad id!" none 5000).2.1 (by decide)

theorem msgIncludes_invalid_invalid :
    msgIncludes "Invalid agentId format" "Invalid agentId" = true := by decide

theorem msgIncludes_notreg_invalid :
    msgIncludes "Agent not registered" "Invalid agentId" = false := by decide

theorem msgIncludes_notreg_notreg :
    msgIncludes "Agent not registered" "not registered" = true := by decide

theorem hbRow_eq_of_ne (agentId : String) (status currentQueueId : Option String)
    (now : Nat) (a : DbAgentRow) (h : a.id ≠ agentId) :
    hbRow agentId status currentQueueId now a = a := by
  unfold hbRow
  rw [if_neg (by simp [h])]

theorem hbRow_eq_of_eq (agentId : String) (status currentQueueId : Option String)
    (now : Nat) (a : DbAgentRow) (h : a.id = agentId) :
    hbRow agentId status currentQueueId now a =
      { a with
        lastHeartbeat := now,
        status :=
          match status with
          | some s => if s.isEmpty then a.status else s
          | none => a.status,
        currentQueueId :=
          match currentQueueId with
          | some q => some q
          | none => a.currentQueueId } := by
  unfold hbRow
  rw [if_pos (by simp [h])]

/-- C6: the heartbeat call fails with the invalid-identifier error (surfaced
as HTTP 400) on a malformed id, fails with the not-registered error (surfaced
as HTTP 404) when no durable record for the id exists, and otherwise responds
200 with the ok body having stamped the durable lastHeartbeat with now. -/
theorem c6_heartbeat_spec (redis : Option RedisState) (db : List DbAgentRow)
    (agentId : String) (status currentQueueId : Option String) (now : Nat) :
    (isValidAgentId agentId = false →
      updateHeartbeat redis db agentId status currentQueueId now =
        Except.error "Invalid agentId format" ∧
      (heartbeatRoute redis db agentId status currentQueueId now).1 = ⟨400, false⟩) ∧
    (isValidAgentId agentId = true → (∀ row ∈ db, row.id ≠ agentId) →
      updateHeartbeat redis db agentId status currentQueueId now =
        Except.error "Agent not registered" ∧
      (heartbeatRoute redis db agentId status currentQueueId now).1 = ⟨404, false⟩) ∧
    (isValidAgentId agentId = true → ∀ row ∈ db, row.id = agentId →
      (heartbeatRoute redis db agentId status currentQueueId now).1 = ⟨200, true⟩ ∧
      ∃ row2 ∈ (heartbeatRoute redis db agentId status currentQueueId now).2.1,
        row2.id = agentId ∧ row2.lastHeartbeat = now) := by
  refine ⟨fun hinv => ?_, fun hv hnone => ?_, fun hv row hrow hid => ?_⟩
  · have hu : updateHeartbeat redis db agentId status currentQueueId now =
        Except.error "Invalid agentId format" := by
      rw [updateHeartbeat, if_pos (by simp [hinv])]
    refine ⟨hu, ?_⟩
    by_cases he : agentId.isEmpty = true
    · rw [heartbeatRoute, if_pos he]
    · rw [heartbeatRoute, if_neg he, hu]
      simp [msgIncludes_invalid_invalid]
  · have hany : db.any (fun a => a.id == agentId) = false := by
      simp only [List.any_eq_false]
      intro a ha
      simp [hnone a ha]
    have hu : updateHeartbeat redis db agentId status currentQueueId now =
        Except.error "Agent not registered" := by
      rw [updateHeartbeat, if_neg (by simp [hv]), if_pos (by simp [hany])]
    have hemp := isValidAgentId_not_strEmpty hv
    refine ⟨hu, ?_⟩
    rw [heartbeatRoute, if_neg (by simp [hemp]), hu]
    simp [msgIncludes_notreg_invalid, msgIncludes_notreg_notreg]
  · have hany : db.any (fun a => a.id == agentId) = true :=
      List.any_eq_true.mpr ⟨row, hrow, by simp [hid]⟩
    have hu : updateHeartbeat redis db agentId status currentQueueId now =
        Except.ok (db.map (hbRow agentId status currentQueueId now),
          heartbeatCacheRefresh redis agentId status now) := by
      rw [updateHeartbeat, if_neg (by simp [hv]), if_neg (by simp [hany])]
    have hemp := isValidAgentId_not_strEmpty hv
    have hroute : heartbeatRoute redis db agentId status currentQueueId now =
        (⟨200, true⟩, db.map (hbRow agentId status currentQueueId now),
          heartbeatCacheRefresh redis agentId status now) := by
      rw [heartbeatRoute, if_neg (by simp [hemp]), hu]
    rw [hroute]
    refine ⟨rfl, hbRow agentId status currentQueueId now row,
      List.mem_map_of_mem _ hrow, ?_, ?_⟩
    · rw [hbRow_eq_of_eq agentId status currentQueueId now row hid]
      exact hid
    · rw [hbRow_eq_of_eq agentId status currentQueueId now row hid]

/-- Witness for C6 at concrete inputs: malformed id gives 400, an unknown but
well-formed id gives 404, and a registered id gives 200 with lastHeartbeat
stamped. -/
theorem c6_heartbeat_spec_witness :
    ((heartbeatRoute none [] "bad id!" none none 10).1 = ⟨400, false⟩) ∧
    ((heartbeatRoute none [] "ghost" none none 10).1 = ⟨404, false⟩) ∧
    ((heartbeatRoute none
        [{ id := "agent-1", name := "Agent 1", status := "idle",
           lastHeartbeat := 0, registeredAt := 0, currentQueueId := none }]
        "agent-1" none none 10).1 = ⟨200, true⟩) := by
  refine ⟨?_, ?_, ?_⟩
  · exact ((c6_heartbeat_spec none [] "bad id!" none none 10).1 (by decide)).2
  · exact ((c6_heartbeat_spec none [] "ghost" none none 10).2.1 (by decide)
      (by intro r hr; cases hr)).2
  · exact ((c6_heartbeat_spec none
      [{ id := "agent-1", name := "Agent 1", status := "idle",
         lastHeartbeat := 0, registeredAt := 0, currentQueueId := none }]
      "agent-1" none none 10).2.2 (by decide) _ (List.mem_singleton_self _)
      (by decide)).1

/-- C10: a successful heartbeat rewrites the durable store row-wise with
`hbRow`; rows of other agents are untouched, and the agent's own row keeps
its name and registeredAt, keeps its status when no status or an empty status
was supplied, and changes only lastHeartbeat (always), status (when a
non-empty one is given) and currentQueueId (when given). -/
theorem c10_heartbeat_frame (redis : Option RedisState) (db : List DbAgentRow)
    (agentId : String) (status currentQueueId : Option String) (now : Nat)
    (hv : isValidAgentId agentId = true)
    (hex : db.any (fun a => a.id == agentId) = true) :
    (∃ redis2, updateHeartbeat redis db agentId status currentQueueId now =
      Except.ok (db.map (hbRow agentId status currentQueueId now), redis2)) ∧
    (∀ a : DbAgentRow, a.id ≠ agentId →
      hbRow agentId status currentQueueId now a = a) ∧
    (∀ a : DbAgentRow, a.id = agentId →
      (hbRow agentId status currentQueueId now a).id = a.id ∧
      (hbRow agentId status currentQueueId now a).name = a.name ∧
      (hbRow agentId status currentQueueId now a).registeredAt = a.registeredAt ∧
      (hbRow agentId status currentQueueId now a).lastHeartbeat = now ∧
      ((status = none ∨ status = some "") →
        (hbRow agentId status currentQueueId now a).status = a.status) ∧
      (∀ s, status = some s → s.isEmpty = false →
        (hbRow agentId status currentQueueId now a).status = s) ∧
      (currentQueueId = none →
        (hbRow agentId status currentQueueId now a).currentQueueId = a.currentQueueId) ∧
      (∀ q, currentQueueId = some q →
        (hbRow agentId status currentQueueId now a).currentQueueId = some q)) := by
  refine ⟨⟨heartbeatCacheRefresh redis agentId status now, ?_⟩,
    fun a ha => hbRow_eq_of_ne agentId status currentQueueId now a ha,
    fun a ha => ?_⟩
  · rw [updateHeartbeat, if_neg (by simp [hv]), if_neg (by simp [hex])]
  · rw [hbRow_eq_of_eq agentId status currentQueueId now a ha]
    refine ⟨rfl, rfl, rfl, rfl, fun hs => ?_, fun s hs hsne => ?_,
      fun hq => ?_, fun q hq => ?_⟩
    · rcases hs with hs | hs <;> subst hs <;> rfl
    · subst hs
      simp [hsne]
    · subst hq
      rfl
    · subst hq
      rfl

/-- Witness for C10: heartbeating a registered agent with no options stamps
only lastHeartbeat; name, registeredAt and status survive. -/
theorem c10_heartbeat_frame_witness :
    ∃ redis2, updateHeartbeat none
      [{ id := "agent-1", name := "Agent 1", status := "busy",
         lastHeartbeat := 0, registeredAt := 3, currentQueueId := none }]
      "agent-1" none none 777 =
      Except.ok ([{ id := "agent-1", name := "Agent 1", status := "busy",
                    lastHeartbeat := 777, registeredAt := 3,
                    currentQueueId := none }], redis2) := by
  obtain ⟨r2, hr⟩ := (c10_heartbeat_frame none
    [{ id := "agent-1", name := "Agent 1", status := "busy",
       lastHeartbeat := 0, registeredAt := 3, currentQueueId := none }]
    "agent-1" none none 777 (by decide) (by decide)).1
  refine ⟨r2, ?_⟩
  rw [hr]
  have hmap : List.map (hbRow "agent-1" none none 777)
      [{ id := "agent-1", name := "Agent 1", status := "busy",
         lastHeartbeat := 0, registeredAt := 3, currentQueueId := none }] =
      [{ id := "agent-1", name := "Agent 1", status := "busy",
         lastHeartbeat := 777, registeredAt := 3, currentQueueId := none }] := by
    decide
  rw [hmap]

/-- C7: remove returns false exactly when the id is malformed, always retains
the durable store, and on success drops the agent from the cache's online
tracking (online set, data hash, heartbeat key); the DELETE route responds
404 exactly when remove reports failure and with the 200 ok body when it
reports success. -/
theorem c7_remove_spec (redis : Option RedisState) (db : List DbAgentRow)
    (agentId : String) :
    ((removeAgent redis db agentId).1 = false ↔ isValidAgentId agentId = false) ∧
    (removeAgent redis db agentId).2.1 = db ∧
    (isValidAgentId agentId = true → ∀ st, redis = some st →
      ∃ st2, (removeAgent redis db agentId).2.2 = some st2 ∧
        agentId ∉ st2.agentsOnline ∧
        (∀ kv ∈ st2.agentData, kv.1 ≠ agentId) ∧
        (∀ kv ∈ st2.agentHeartbeat, kv.1 ≠ agentId)) ∧
    ((removeAgent redis db agentId).1 = false →
      deleteAgentRoute redis db agentId = (⟨404, false⟩, db, redis)) ∧
    ((removeAgent redis db agentId).1 = true →
      (deleteAgentRoute redis db agentId).1 = ⟨200, true⟩) := by
  by_cases hv : isValidAgentId agentId = true
  · have hrm : removeAgent redis db agentId =
        (true, db,
          match redis with
          | none => none
          | some st => some
            { agentsOnline := st.agentsOnline.filter (fun id => id != agentId),
              agentData := delAssoc st.agentData agentId,
              agentHeartbeat := delAssoc st.agentHeartbeat agentId }) := by
      rw [removeAgent.eq_def, if_neg (by simp [hv])]
    refine ⟨?_, ?_, ?_, ?_, ?_⟩
    · rw [hrm]
      simp [hv]
    · rw [hrm]
    · intro _ st hst
      subst hst
      rw [hrm]
      refine ⟨_, rfl, ?_, ?_, ?_⟩
      · intro hmem
        have := (List.mem_filter.mp hmem).2
        simp at this
      · intro kv hkv
        simp only [delAssoc, List.mem_filter, bne_iff_ne, ne_eq] at hkv
        exact hkv.2
      · intro kv hkv
        simp only [delAssoc, List.mem_filter, bne_iff_ne, ne_eq] at hkv
        exact hkv.2
    · intro h
      rw [hrm] at h
      simp at h
    · intro _
      rw [deleteAgentRoute, hrm]
  · have hvf : isValidAgentId agentId = false := by
      revert hv
      cases isValidAgentId agentId <;> simp
    have hrm : removeAgent redis db agentId = (false, db, redis) := by
      rw [removeAgent.eq_def, if_pos (by simp [hvf])]
    refine ⟨?_, ?_, ?_, ?_, ?_⟩
    · rw [hrm]
      simp [hvf]
    · rw [hrm]
    · intro hcontr
      exact absurd hcontr hv
    · intro _
      rw [deleteAgentRoute, hrm]
    · intro h
      rw [hrm] at h
      simp at h

/-- Witness for C7: removing a registered agent drops it from the cache's
online tracking and the route replies with the ok body; a malformed id makes
the route reply 404 while the durable store is untouched. -/
theorem c7_remove_spec_witness :
    ((removeAgent (some c2WitnessState) c2Db "a").2.1 = c2Db ∧
      ∃ st2, (removeAgent (some c2WitnessState) c2Db "a").2.2 = some st2 ∧
        "a" ∉ st2.agentsOnline) ∧
    deleteAgentRoute (some c2WitnessState) c2Db "bad id!" =
      (⟨404, false⟩, c2Db, some c2WitnessState) := by
  have h := c7_remove_spec (some c2WitnessState) c2Db "a"
  have hbad := c7_remove_spec (some c2WitnessState) c2Db "bad id!"
  refine ⟨⟨h.2.1, ?_⟩, hbad.2.2.2.1 (hbad.1.mpr (by decide))⟩
  obtain ⟨st2, hst2, honline, _, _⟩ :=
    h.2.2.1 (by decide) c2WitnessState rfl
  exact ⟨st2, hst2, honline⟩

/-- C2 counterexample: with the cache readable and its online set non-empty
(it names agent "a"), but the data hash of "a" missing, list() does not
return the online-set member "a"; it falls back to the durable store and
returns agent "b". -/
theorem c2_list_counterexample :
    c2CacheState.agentsOnline = ["a"] ∧
    (listOnlineAgents (some c2CacheState) c2Db 100000).1.map ListedAgent.id = ["b"] ∧
    "a" ∉ (listOnlineAgents (some c2CacheState) c2Db 100000).1.map ListedAgent.id := by
  decide

/-- C2 amended: when the cache is readable, its online set non-empty and at
least one member's data hash present, list() returns exactly the cached
records of the members with data hashes, all marked online, leaving the
durable store untouched; when the cache is unavailable it falls back to the
durable store, sweeps rows whose heartbeat is older than the 60 s timeout,
and marks each surviving record offline exactly when now - lastHeartbeat
exceeds 60 s; when the cache is readable but its online set or the fetched
data is empty, the same fallback runs except that the sweep is skipped. -/
theorem c2_list_amended (st : RedisState) (db : List DbAgentRow) (now : Nat) :
    (st.agentsOnline ≠ [] →
      st.agentsOnline.filterMap (fun id => lookupData st id) ≠ [] →
      (listOnlineAgents (some st) db now).2 = db ∧
      (listOnlineAgents (some st) db now).1.map ListedAgent.id =
        (st.agentsOnline.filterMap (fun id => lookupData st id)).map CacheAgentData.id ∧
      ∀ r ∈ (listOnlineAgents (some st) db now).1, r.offline = false) ∧
    ((listOnlineAgents none db now).2 =
        db.filter (fun a => !decide (a.lastHeartbeat < now - HEARTBEAT_TIMEOUT_MS)) ∧
      ∀ r ∈ (listOnlineAgents none db now).1,
        r.offline = decide (now - r.lastHeartbeat > HEARTBEAT_TIMEOUT_MS) ∧
        ∃ a ∈ db, ¬ a.lastHeartbeat < now - HEARTBEAT_TIMEOUT_MS ∧ a.id = r.id ∧
          a.lastHeartbeat = r.lastHeartbeat) ∧
    ((st.agentsOnline = [] ∨
        st.agentsOnline.filterMap (fun id => lookupData st id) = []) →
      (listOnlineAgents (some st) db now).2 = db ∧
      ∀ r ∈ (listOnlineAgents (some st) db now).1,
        r.offline = decide (now - r.lastHeartbeat > HEARTBEAT_TIMEOUT_MS) ∧
        ∃ a ∈ db, a.id = r.id ∧ a.lastHeartbeat = r.lastHeartbeat) := by
  refine ⟨fun hne hdata => ?_, ⟨?_, ?_⟩, fun hemp => ?_⟩
  · have h1 : st.agentsOnline.isEmpty = false := by
      cases h : st.agentsOnline with
      | nil => exact absurd h hne
      | cons a l => rfl
    have h2 : (st.agentsOnline.filterMap (fun id => lookupData st id)).isEmpty = false := by
      cases h : st.agentsOnline.filterMap (fun id => lookupData st id) with
      | nil => exact absurd h hdata
      | cons a l => rfl
    have hl : listOnlineAgents (some st) db now =
        ((st.agentsOnline.filterMap (fun id => lookupData st id)).map (fun d =>
          { id := d.id, name := d.name, status := d.status, lastHeartbeat := now,
            registeredAt := now, currentQueueId := none, offline := false }), db) := by
      simp only [listOnlineAgents]
      rw [if_neg (by simp [h1]), if_neg (by simp [h2])]
    rw [hl]
    refine ⟨rfl, by simp [List.map_map], ?_⟩
    intro r hr
    obtain ⟨d, _, rfl⟩ := List.mem_map.mp hr
    rfl
  · simp only [listOnlineAgents, listOnlineFallback, removeOfflineAgents,
      Bool.false_eq_true, if_false]
  · intro r hr
    simp only [listOnlineAgents, listOnlineFallback, removeOfflineAgents,
      Bool.false_eq_true, if_false] at hr
    obtain ⟨a, ha, rfl⟩ := List.mem_map.mp hr
    obtain ⟨hadb, hpred⟩ := List.mem_filter.mp ha
    refine ⟨rfl, a, hadb, ?_, rfl, rfl⟩
    simpa using hpred
  · have hl : listOnlineAgents (some st) db now = listOnlineFallback true db now := by
      rcases hemp with h | h
      · simp only [listOnlineAgents]
        rw [if_pos (by simp [h])]
      · simp only [listOnlineAgents]
        by_cases he : st.agentsOnline.isEmpty = true
        · rw [if_pos he]
        · rw [if_neg he, if_pos (by simp [h])]
    rw [hl]
    have hfall : listOnlineFallback true db now =
        (db.map (fun a =>
          { id := a.id, name := a.name, status := a.status,
            lastHeartbeat := a.lastHeartbeat, registeredAt := a.registeredAt,
            currentQueueId := a.currentQueueId,
            offline := decide (now - a.lastHeartbeat > HEARTBEAT_TIMEOUT_MS) }), db) := by
      simp only [listOnlineFallback, removeOfflineAgents, if_pos]
    rw [hfall]
    refine ⟨rfl, ?_⟩
    intro r hr
    obtain ⟨a, hadb, rfl⟩ := List.mem_map.mp hr
    exact ⟨rfl, a, hadb, rfl, rfl⟩

/-- Witness for C2: on a cache holding one online agent with its data hash,
list() returns exactly that cached record marked online and leaves the
durable store untouched. -/
theorem c2_list_amended_witness :
    (listOnlineAgents (some c2WitnessState) c2Db 100000).2 = c2Db ∧
    (listOnlineAgents (some c2WitnessState) c2Db 100000).1.map ListedAgent.id =
      (c2WitnessState.agentsOnline.filterMap
        (fun id => lookupData c2WitnessState id)).map CacheAgentData.id ∧
    ∀ r ∈ (listOnlineAgents (some c2WitnessState) c2Db 100000).1, r.offline = false :=
  (c2_list_amended c2WitnessState c2Db 100000).1 (by decide) (by decide)

end ReconMC
